import Mathlib

/-!
Shallow embedding of the filtering/aggregation core of
`src/dashboard.py` (a streamlit video-game-sales dashboard).

The core pipeline in the source is:
  * `load_data` (lines 11-17): `pd.read_csv`, then
    `df.dropna(subset=['Year', 'Publisher'])`, then
    `df['Year'] = df['Year'].astype(int)`;
  * `filtered_df` (lines 60-65): conjunction of
    `Genre.isin(selected_genres)`, `Platform.isin(selected_platforms)`,
    `Year >= lo`, `Year <= hi`;
  * metrics (lines 72-73): `filtered_df['Global_Sales'].sum()`,
    `len(filtered_df)`;
  * group-bys (lines 86, 93, 104):
    `filtered_df.groupby(K)['Global_Sales'].sum()` (pandas emits one row
    per observed key, keys sorted ascending), for Genre and Platform
    followed by `.sort_values(ascending=False)` (pandas `nargsort`
    reverses the series, argsorts it ascending, and reverses the
    indexer back — the net effect is a stable sort by descending
    value, so ties keep the series' original order).

Modelling conventions: a dataframe is a `List` of records; pandas cell
values that may be `NaN` are `Option`; `Global_Sales` floats are `ℚ`
(exact arithmetic, as the sales figures are finite decimals); the `Year`
column as parsed by `read_csv` is a cell that is either missing, an
integral number, or a malformed non-numeric string (the spec notes
truncation of fractional years is not expected, so numeric cells carry
an `Int`).  `isin` on a `NaN` cell is `False`; `groupby` keys a `NaN`
cell into no group; `.sum()` skips `NaN` values (treats them as `0`).
`astype(int)` over a column raises on the first malformed value, which
the embedding renders as `Except`.
-/

namespace Dashboard

/-- A `Year` cell as it stands after `pd.read_csv`: either an integral
number or a malformed (non-numeric) string.  A missing cell is `none`
at the record level. -/
inductive YearCell where
  | num (n : Int)
  | malformed (s : String)
deriving DecidableEq, Repr

/-- One raw row of the CSV before cleaning: every field may be `NaN`. -/
structure RawRecord where
  title : Option String
  genre : Option String
  platform : Option String
  publisher : Option String
  year : Option YearCell
  global_sales : Option ℚ
deriving DecidableEq, Repr

/-- One row after `load_data`'s cleaning: `Publisher` and `Year` are
guaranteed present and `Year` is an integer; the other columns are
untouched, so they may still be `NaN`. -/
structure Record where
  title : Option String
  genre : Option String
  platform : Option String
  publisher : String
  year : Int
  global_sales : Option ℚ
deriving DecidableEq, Repr

/-- Embeds `df.dropna(subset=['Year', 'Publisher'])`: a row is kept iff
both cells are present (line 15 of the source). -/
def cleanKeep (r : RawRecord) : Bool :=
  r.year.isSome && r.publisher.isSome

/-- Coerce one surviving row: `astype(int)` on its `Year` cell fails on
a malformed string (pandas raises `ValueError`, modelled as `.error`). -/
def coerceRecord (r : RawRecord) : Except String Record :=
  match r.year, r.publisher with
  | some (YearCell.num n), some p =>
      Except.ok ⟨r.title, r.genre, r.platform, p, n, r.global_sales⟩
  | some (YearCell.malformed s), some _ => Except.error s
  | _, _ => Except.error "missing required field"

/-- Embeds `df['Year'] = df['Year'].astype(int)` (line 16): the whole
column is coerced at once, so one malformed cell fails the whole
operation. -/
def astypeIntCol : List RawRecord → Except String (List Record)
  | [] => Except.ok []
  | r :: t =>
      match coerceRecord r with
      | Except.error e => Except.error e
      | Except.ok cr =>
          match astypeIntCol t with
          | Except.error e => Except.error e
          | Except.ok crs => Except.ok (cr :: crs)

/-- The cleaning body of `load_data` (lines 13-17), applied to the rows
already parsed out of the CSV: drop rows with missing `Year` or
`Publisher`, then coerce the `Year` column to integers.  An exception
from the coercion propagates out of `load_data` to its caller (which
halts the app, lines 22-26). -/
def load_data (raw : List RawRecord) : Except String (List Record) :=
  astypeIntCol (raw.filter cleanKeep)

/-- The total coercion a well-formed surviving row actually receives
(`Year` present and numeric, `Publisher` present); the default values
are never used on such a row. -/
def forceCoerce (r : RawRecord) : Record :=
  ⟨r.title, r.genre, r.platform, r.publisher.getD "",
    (match r.year with | some (YearCell.num n) => n | _ => 0),
    r.global_sales⟩

/-- Whether a raw row's `Year` cell is a malformed string (the cells
`astype(int)` raises on). -/
def yearMalformed (r : RawRecord) : Bool :=
  match r.year with
  | some (YearCell.malformed _) => true
  | _ => false

/-- The user selections of the sidebar (lines 33-56): two multiselect
lists and an inclusive year range. -/
structure FilterCriteria where
  genres : List String
  platforms : List String
  year_range : Int × Int
deriving DecidableEq, Repr

/-- The row predicate of `filtered_df` (lines 60-65):
`Genre.isin(selected_genres) & Platform.isin(selected_platforms) &
(Year >= lo) & (Year <= hi)`.  `isin` compares the cell against each
selected string; a `NaN` cell matches nothing. -/
def matchesCriteria (c : FilterCriteria) (r : Record) : Bool :=
  (c.genres.any fun g => r.genre == some g)
    && (c.platforms.any fun p => r.platform == some p)
    && decide (c.year_range.1 ≤ r.year)
    && decide (r.year ≤ c.year_range.2)

/-- Embeds `filtered_df` (lines 60-65): the rows of `df` satisfying all
four boolean masks, in their original order. -/
def filtered_df (df : List Record) (c : FilterCriteria) : List Record :=
  df.filter (matchesCriteria c)

/-- The contribution of one row to a `Global_Sales` sum: pandas
`.sum()` skips `NaN`s, i.e. counts them as `0`. -/
def salesOf (r : Record) : ℚ :=
  r.global_sales.getD 0

/-- Embeds `filtered_df['Global_Sales'].sum()` (line 72). -/
def total_sales (view : List Record) : ℚ :=
  (view.map salesOf).sum

/-- Embeds `len(filtered_df)` (line 73). -/
def num_games (view : List Record) : Nat :=
  view.length

/-- The index of `view.groupby(f)`: pandas emits one group per observed
non-`NaN` key, sorted ascending (`groupby(..., sort=True)` is the
default). -/
def groupKeys {κ : Type} [LinearOrder κ] (f : Record → Option κ)
    (view : List Record) : List κ :=
  List.insertionSort (· ≤ ·) (view.filterMap f).dedup

/-- The `Global_Sales` sum of the group of key `k`. -/
def groupSum {κ : Type} [DecidableEq κ] (f : Record → Option κ) (k : κ)
    (view : List Record) : ℚ :=
  ((view.filter fun r => decide (f r = some k)).map salesOf).sum

/-- Embeds `view.groupby(f)['Global_Sales'].sum()` as a key-ascending
association list. -/
def groupBySum {κ : Type} [LinearOrder κ] (f : Record → Option κ)
    (view : List Record) : List (κ × ℚ) :=
  (groupKeys f view).map fun k => (k, groupSum f k view)

/-- The comparison `Series.sort_values(ascending=False)` effectively
sorts by: the value of one series entry against another, descending. -/
def valueDescLe {κ : Type} (a b : κ × ℚ) : Prop :=
  b.2 ≤ a.2

instance {κ : Type} : DecidableRel (@valueDescLe κ) := by
  intro a b
  unfold valueDescLe
  infer_instance

instance {κ : Type} : IsTotal (κ × ℚ) valueDescLe := by
  constructor
  intro a b
  exact (le_total b.2 a.2).imp id id

instance {κ : Type} : IsTrans (κ × ℚ) valueDescLe := by
  constructor
  intro a b c hab hbc
  exact hbc.trans hab

/-- Embeds `Series.sort_values(ascending=False)` (lines 93, 104): for
`ascending=False` pandas `nargsort` reverses the series, takes an
ascending argsort, and reverses the indexer back, so the result is the
*stable* descending-by-value rearrangement of the series — entries with
equal values keep their original relative order (for a `groupby` output
that original order is ascending key order).  A stable insertion sort
by descending value embeds exactly that. -/
def sortValuesDesc {κ : Type} [LinearOrder κ] (l : List (κ × ℚ)) :
    List (κ × ℚ) :=
  List.insertionSort valueDescLe l

/-- Embeds `sales_over_time` (line 86): group by `Year` (always present
after cleaning), sum `Global_Sales`; pandas leaves the index ascending. -/
def sales_over_time (view : List Record) : List (Int × ℚ) :=
  groupBySum (fun r => some r.year) view

/-- Embeds `sales_by_genre` (line 93). -/
def sales_by_genre (view : List Record) : List (String × ℚ) :=
  sortValuesDesc (groupBySum (fun r => r.genre) view)

/-- Embeds `sales_by_platform` (line 104). -/
def sales_by_platform (view : List Record) : List (String × ℚ) :=
  sortValuesDesc (groupBySum (fun r => r.platform) view)

/-- The spec's `AggregateSummary`: every derived summary the page
computes from `filtered_df`. -/
structure AggregateSummary where
  total_sales : ℚ
  record_count : Nat
  sales_by_genre : List (String × ℚ)
  sales_by_platform : List (String × ℚ)
  sales_by_year : List (Int × ℚ)
deriving DecidableEq, Repr

/-- The spec's `aggregate(view)`: bundle the metric and chart
computations of lines 72-73, 86, 93 and 104. -/
def aggregate (view : List Record) : AggregateSummary :=
  { total_sales := total_sales view
    record_count := num_games view
    sales_by_genre := sales_by_genre view
    sales_by_platform := sales_by_platform view
    sales_by_year := sales_over_time view }

/-! ### Basic facts about the filter predicate -/

theorem matchesCriteria_iff (c : FilterCriteria) (r : Record) :
    matchesCriteria c r = true ↔
      (∃ g ∈ c.genres, r.genre = some g) ∧
      (∃ p ∈ c.platforms, r.platform = some p) ∧
      (c.year_range.1 ≤ r.year ∧ r.year ≤ c.year_range.2) := by
  simp [matchesCriteria, List.any_eq_true, and_assoc]

theorem mem_filtered_df_iff {df : List Record} {c : FilterCriteria}
    {r : Record} : r ∈ filtered_df df c ↔ r ∈ df ∧ matchesCriteria c r = true :=
  List.mem_filter

/-! ### Concrete data used by witnesses and counterexamples -/

/-- The first record of the spec scenario (§8): `Sports/PS2/EA/2005/1.5`. -/
def recSports : Record :=
  ⟨none, some "Sports", some "PS2", "EA", 2005, some (3 / 2)⟩

/-- The second record of the spec scenario (§8): `Action/X360/Ubi/2010/2.0`. -/
def recAction : Record :=
  ⟨none, some "Action", some "X360", "Ubi", 2010, some 2⟩

/-- The spec scenario's Dataset `D`. -/
def scenarioD : List Record := [recSports, recAction]

/-- The spec scenario's FilterCriteria `C`. -/
def scenarioC : FilterCriteria := ⟨["Sports"], ["PS2"], (2000, 2010)⟩

/-- An all-criteria criteria value for the two scenario records, used
where a filter that keeps both records is wanted. -/
def broadC : FilterCriteria :=
  ⟨["Sports", "Action"], ["PS2", "X360"], (2000, 2010)⟩

/-- A criteria value with an empty genre selection. -/
def emptyGenresC : FilterCriteria := ⟨[], ["PS2"], (2000, 2010)⟩

/-- Two records with distinct genres but equal `Global_Sales`, whose
grouped sums therefore tie. -/
def tieView : List Record :=
  [⟨none, some "Action", some "PS2", "EA", 2005, some 1⟩,
   ⟨none, some "Sports", some "PS2", "EA", 2006, some 1⟩]

/-! ### Claim C1 -/

/-- C1: a Record `r` of `D` is in `filter(D, C)` iff its genre is among
`C.genres`, its platform is among `C.platforms`, and its year lies in
the inclusive range `C.year_range` — all three simultaneously; a Record
of `D` failing any one of them is absent from the result. -/
theorem C1_filter_conjunctive (df : List Record) (c : FilterCriteria)
    (r : Record) (h : r ∈ df) :
    r ∈ filtered_df df c ↔
      (∃ g ∈ c.genres, r.genre = some g) ∧
      (∃ p ∈ c.platforms, r.platform = some p) ∧
      (c.year_range.1 ≤ r.year ∧ r.year ≤ c.year_range.2) := by
  rw [mem_filtered_df_iff, matchesCriteria_iff]
  simp [h]

theorem C1_filter_conjunctive_witness :
    recSports ∈ scenarioD ∧ recSports ∈ filtered_df scenarioD scenarioC := by
  have h : recSports ∈ scenarioD := by simp [scenarioD]
  refine ⟨h, (C1_filter_conjunctive scenarioD scenarioC recSports h).mpr ?_⟩
  refine ⟨⟨"Sports", ?_, rfl⟩, ⟨"PS2", ?_, rfl⟩, ?_⟩ <;> simp [scenarioC, recSports]

/-! ### Claim C4 -/

/-- C4: an empty genre (or platform) selection makes `filtered_df`
empty — "no selection" is not "select all" — and aggregating the empty
view yields zero sales, zero count, and three empty mappings. -/
theorem C4_empty_selection (df : List Record) (c : FilterCriteria)
    (h : c.genres = [] ∨ c.platforms = []) :
    filtered_df df c = [] ∧
      aggregate (filtered_df df c) =
        ⟨0, 0, [], [], []⟩ := by
  have hempty : filtered_df df c = [] := by
    rw [filtered_df, List.filter_eq_nil_iff]
    intro r _
    rcases h with h | h <;> simp [matchesCriteria, h]
  exact ⟨hempty, by rw [hempty]; rfl⟩

theorem C4_empty_selection_witness :
    filtered_df scenarioD emptyGenresC = [] ∧
      aggregate (filtered_df scenarioD emptyGenresC) = ⟨0, 0, [], [], []⟩ :=
  C4_empty_selection scenarioD emptyGenresC (Or.inl rfl)

/-! ### Claim C5 -/

/-- C5: the aggregate of any filtered view conserves sales exactly —
`total_sales` is precisely the sum of `Global_Sales` over the Records of
`filter(D, C)` (`0` when the view is empty, as the empty sum) — and
`record_count` is the number of Records of the view; `filtered_df` and
`aggregate` are total functions, so no input has an error condition. -/
theorem C5_aggregate_conservation (df : List Record) (c : FilterCriteria) :
    (aggregate (filtered_df df c)).total_sales =
        ((filtered_df df c).map salesOf).sum ∧
      (aggregate (filtered_df df c)).record_count =
        (filtered_df df c).length ∧
      (aggregate ([] : List Record)).total_sales = 0 :=
  ⟨rfl, rfl, rfl⟩

/-! ### Claim C9 -/

/-- C9: the spec's concrete scenario: filtering the two-record Dataset
with `genres = {Sports}`, `platforms = {PS2}`, `year_range = (2000,
2010)` keeps exactly the first Record, and aggregates to
`total_sales = 1.5`, `record_count = 1`, `sales_by_genre =
{Sports: 1.5}`, `sales_by_platform = {PS2: 1.5}`, `sales_by_year =
{2005: 1.5}`. -/
theorem C9_scenario :
    filtered_df scenarioD scenarioC = [recSports] ∧
      aggregate (filtered_df scenarioD scenarioC) =
        ⟨3 / 2, 1, [("Sports", 3 / 2)], [("PS2", 3 / 2)], [(2005, 3 / 2)]⟩ := by
  constructor
  · rfl
  · norm_num +decide [aggregate, filtered_df, matchesCriteria, total_sales,
      num_games, sales_by_genre, sales_by_platform, sales_over_time, groupBySum,
      groupKeys, groupSum, sortValuesDesc, salesOf, scenarioD, scenarioC,
      recSports, recAction, List.insertionSort, List.orderedInsert,
      valueDescLe, List.filter, List.filterMap, List.dedup, List.pwFilter,
      List.any]

/-! ### The cleaning stage -/

theorem coerceRecord_ok {r : RawRecord} (hk : cleanKeep r = true)
    (hm : yearMalformed r = false) :
    coerceRecord r = Except.ok (forceCoerce r) := by
  rcases hy : r.year with _ | c
  · simp [cleanKeep, hy] at hk
  · rcases hp : r.publisher with _ | p
    · simp [cleanKeep, hp] at hk
    · cases c with
      | num n => simp [coerceRecord, forceCoerce, hy, hp]
      | malformed s => simp [yearMalformed, hy] at hm

theorem astypeIntCol_ok {l : List RawRecord}
    (h : ∀ r ∈ l, cleanKeep r = true ∧ yearMalformed r = false) :
    astypeIntCol l = Except.ok (l.map forceCoerce) := by
  induction l with
  | nil => rfl
  | cons a t ih =>
      have ha := h a (List.mem_cons_self a t)
      have hok := coerceRecord_ok ha.1 ha.2
      have ht := ih fun r hr => h r (List.mem_cons_of_mem a hr)
      simp [astypeIntCol, hok, ht]

/-- When no raw row carries a malformed `Year` string, `load_data`
succeeds and returns exactly the `dropna` survivors, in order, with
`Year` coerced. -/
theorem load_data_ok {raw : List RawRecord}
    (h : ∀ r ∈ raw, yearMalformed r = false) :
    load_data raw = Except.ok ((raw.filter cleanKeep).map forceCoerce) := by
  rw [load_data]
  apply astypeIntCol_ok
  intro r hr
  rw [List.mem_filter] at hr
  exact ⟨hr.2, h r hr.1⟩

theorem astypeIntCol_error {l : List RawRecord} {r : RawRecord}
    (hr : r ∈ l) (he : ∀ cr, coerceRecord r ≠ Except.ok cr) :
    ∃ e, astypeIntCol l = Except.error e := by
  induction l with
  | nil => cases hr
  | cons a t ih =>
      rcases List.mem_cons.mp hr with rfl | hrt
      · rcases hca : coerceRecord r with e | cr
        · exact ⟨e, by simp [astypeIntCol, hca]⟩
        · exact absurd hca (he cr)
      · rcases hca : coerceRecord a with e | cr
        · exact ⟨e, by simp [astypeIntCol, hca]⟩
        · rcases ih hrt with ⟨e, het⟩
          exact ⟨e, by simp [astypeIntCol, hca, het]⟩

/-! ### Claim C3 (corrected) -/

/-- A well-formed raw row: all fields present and numeric year. -/
def rawGood : RawRecord :=
  ⟨some "GT", some "Racing", some "PS2", some "Sony",
    some (YearCell.num 2001), none⟩

/-- A raw row whose `Year` cell is the malformed numeric string
`"19xx"`; `Publisher` is present, so `dropna` keeps the row. -/
def rawMalformed : RawRecord :=
  ⟨some "Bad", some "Action", some "PS2", some "EA",
    some (YearCell.malformed "19xx"), none⟩

/-- C3 counterexample: on a raw Dataset holding one well-formed row and
one row whose `Year` is the malformed string `"19xx"`, `load_data` does
not drop the malformed row and return the remaining one — it fails
outright, propagating the error to the caller. -/
theorem C3_counterexample :
    load_data [rawGood, rawMalformed] = Except.error "19xx" ∧
      load_data [rawGood, rawMalformed] ≠
        Except.ok [forceCoerce rawGood] := by
  constructor
  · rfl
  · intro hcontra
    rw [show load_data [rawGood, rawMalformed] = Except.error "19xx" from rfl]
      at hcontra
    cases hcontra

/-- C3 amended: `load_data` drops exactly the raw Records whose
`Publisher` or `Year` is missing, so `len(clean(raw)) ≤ len(raw)`, the
survivors keep their relative input order and get `Year` coerced to an
integer; however a Record whose `Year` is a malformed numeric string is
not dropped individually — it makes the whole cleaning fail, and that
failure propagates to `load_data`'s caller. -/
theorem C3_clean_rule :
    (∀ raw : List RawRecord, (∀ r ∈ raw, yearMalformed r = false) →
        load_data raw = Except.ok ((raw.filter cleanKeep).map forceCoerce) ∧
        ((raw.filter cleanKeep).map forceCoerce).length ≤ raw.length ∧
        ∀ r ∈ raw, r.publisher = none → r ∉ raw.filter cleanKeep) ∧
      ∀ (raw : List RawRecord) (r : RawRecord), r ∈ raw →
        r.publisher.isSome = true → yearMalformed r = true →
        ∃ e, load_data raw = Except.error e := by
  constructor
  · intro raw h
    refine ⟨load_data_ok h, ?_, ?_⟩
    · rw [List.length_map]
      exact List.length_filter_le _ _
    · intro r _ hp hmem
      rw [List.mem_filter, cleanKeep] at hmem
      simp [hp] at hmem
  · intro raw r hr hp hm
    have hkeep : cleanKeep r = true := by
      rcases hy : r.year with _ | c
      · rw [yearMalformed, hy] at hm
        cases hm
      · simp [cleanKeep, hy, hp]
    have herr : ∀ cr, coerceRecord r ≠ Except.ok cr := by
      intro cr
      rcases hy : r.year with _ | c
      · rw [yearMalformed, hy] at hm
        cases hm
      · cases c with
        | num n => rw [yearMalformed, hy] at hm; cases hm
        | malformed s =>
            rcases hpub : r.publisher with _ | p
            · rw [hpub] at hp; cases hp
            · simp [coerceRecord, hy, hpub]
    rw [load_data]
    exact astypeIntCol_error (List.mem_filter.mpr ⟨hr, hkeep⟩) herr

theorem C3_clean_rule_witness :
    load_data [rawGood] = Except.ok [forceCoerce rawGood] ∧
      load_data [rawMalformed] = Except.error "19xx" := by
  constructor
  · have h := (C3_clean_rule.1 [rawGood] (by simp [rawGood, yearMalformed])).1
    rw [h]
    rfl
  · rfl

/-! ### Claim C10 -/

/-- C10 (implicit): cleaning drops a row only for a missing `Year` or
`Publisher`; a raw row whose `title`, `genre`, `platform` or
`global_sales` is missing but whose `Year` and `Publisher` are present
survives `load_data`, so downstream Records are not guaranteed non-null
in those other fields. -/
theorem C10_only_year_publisher_required (raw : List RawRecord)
    (h : ∀ r ∈ raw, yearMalformed r = false) (r : RawRecord) (hr : r ∈ raw)
    (n : Int) (hy : r.year = some (YearCell.num n)) (p : String)
    (hp : r.publisher = some p) :
    load_data raw = Except.ok ((raw.filter cleanKeep).map forceCoerce) ∧
      forceCoerce r ∈ (raw.filter cleanKeep).map forceCoerce := by
  refine ⟨load_data_ok h, List.mem_map_of_mem forceCoerce ?_⟩
  rw [List.mem_filter]
  exact ⟨hr, by simp [cleanKeep, hy, hp]⟩

/-- A raw row with `Year` and `Publisher` present but every other field
missing. -/
def rawBare : RawRecord :=
  ⟨none, none, none, some "EA", some (YearCell.num 2000), none⟩

theorem C10_only_year_publisher_required_witness :
    load_data [rawBare] =
        Except.ok (([rawBare].filter cleanKeep).map forceCoerce) ∧
      forceCoerce rawBare ∈ ([rawBare].filter cleanKeep).map forceCoerce :=
  C10_only_year_publisher_required [rawBare]
    (by simp [rawBare, yearMalformed]) rawBare (by simp) 2000 rfl "EA" rfl

/-! ### Group-by machinery: keys, membership, partition -/

theorem groupKeys_nodup {κ : Type} [LinearOrder κ] (f : Record → Option κ)
    (view : List Record) : (groupKeys f view).Nodup :=
  (List.perm_insertionSort _ _).symm.nodup (List.nodup_dedup _)

theorem mem_groupKeys {κ : Type} [LinearOrder κ] {f : Record → Option κ}
    {view : List Record} {k : κ} :
    k ∈ groupKeys f view ↔ ∃ r ∈ view, f r = some k := by
  simp [groupKeys, List.mem_dedup, List.mem_filterMap]

theorem sum_map_ite {κ : Type} [DecidableEq κ] (keys : List κ) (k0 : κ)
    (hnd : keys.Nodup) (hk : k0 ∈ keys) (c : ℚ) (f : κ → ℚ) :
    (keys.map fun k => if k = k0 then c + f k else f k).sum =
      c + (keys.map f).sum := by
  induction keys with
  | nil => cases hk
  | cons a t ih =>
      rcases List.mem_cons.mp hk with rfl | hkt
      · have hnot : k0 ∉ t := (List.nodup_cons.mp hnd).1
        have ht : (t.map fun k => if k = k0 then c + f k else f k) =
            t.map f := by
          apply List.map_congr_left
          intro k hk'
          have hne : k ≠ k0 := fun h => hnot (h ▸ hk')
          simp [hne]
        rw [List.map_cons, List.sum_cons, ht, if_pos rfl,
          List.map_cons, List.sum_cons]
        ring
      · have ha : a ≠ k0 := fun h => (List.nodup_cons.mp hnd).1 (h ▸ hkt)
        have iht := ih (List.nodup_cons.mp hnd).2 hkt
        simp only [List.map_cons, List.sum_cons, if_neg ha, iht]
        ring

theorem groupSum_cons {κ : Type} [DecidableEq κ] (f : Record → Option κ)
    (k : κ) (r : Record) (t : List Record) :
    groupSum f k (r :: t) =
      (if f r = some k then salesOf r else 0) + groupSum f k t := by
  by_cases h : f r = some k <;> simp [groupSum, List.filter_cons, h]

theorem sum_groupSum {κ : Type} [DecidableEq κ] (f : Record → Option κ)
    (keys : List κ) (hnd : keys.Nodup) :
    ∀ view : List Record, (∀ r ∈ view, ∃ k ∈ keys, f r = some k) →
      (keys.map fun k => groupSum f k view).sum = total_sales view := by
  intro view
  induction view with
  | nil =>
      intro _
      rw [total_sales]
      simp only [List.map_nil, List.sum_nil]
      apply List.sum_eq_zero
      intro x hx
      rcases List.mem_map.mp hx with ⟨k, _, rfl⟩
      rfl
  | cons r t ih =>
      intro hcov
      obtain ⟨k0, hk0, hfr⟩ := hcov r (List.mem_cons_self r t)
      have hmap : (keys.map fun k => groupSum f k (r :: t)) =
          keys.map fun k =>
            if k = k0 then salesOf r + groupSum f k t else groupSum f k t := by
        apply List.map_congr_left
        intro k _
        rw [groupSum_cons, hfr]
        by_cases h : k = k0
        · subst h
          simp
        · have hne : some k0 ≠ some k := fun hc =>
            h (Option.some.inj hc).symm
          simp [hne, h]
      rw [hmap, sum_map_ite keys k0 hnd hk0 (salesOf r)
        (fun k => groupSum f k t),
        ih fun r' hr' => hcov r' (List.mem_cons_of_mem r hr')]
      simp [total_sales]

theorem groupBySum_map_snd {κ : Type} [LinearOrder κ] (f : Record → Option κ)
    (view : List Record) :
    (groupBySum f view).map Prod.snd =
      (groupKeys f view).map fun k => groupSum f k view := by
  rw [groupBySum, List.map_map]
  rfl

theorem groupBySum_snd_sum {κ : Type} [LinearOrder κ] (f : Record → Option κ)
    (view : List Record) (hf : ∀ r ∈ view, (f r).isSome = true) :
    ((groupBySum f view).map Prod.snd).sum = total_sales view := by
  rw [groupBySum_map_snd]
  apply sum_groupSum f (groupKeys f view) (groupKeys_nodup f view)
  intro r hr
  obtain ⟨k, hk⟩ := Option.isSome_iff_exists.mp (hf r hr)
  exact ⟨k, mem_groupKeys.mpr ⟨r, hr, hk⟩, hk⟩

theorem sortValuesDesc_perm {κ : Type} [LinearOrder κ] (l : List (κ × ℚ)) :
    (sortValuesDesc l).Perm l :=
  List.perm_insertionSort _ _

theorem sortValuesDesc_snd_sum {κ : Type} [LinearOrder κ] (l : List (κ × ℚ)) :
    ((sortValuesDesc l).map Prod.snd).sum = (l.map Prod.snd).sum :=
  ((sortValuesDesc_perm l).map Prod.snd).sum_eq

/-! ### Claim C6 -/

/-- C6: over a FilteredView, each of the three group-by mappings is a
complete partition of the view: the values of `sales_by_genre` sum to
`total_sales`, and likewise for `sales_by_platform` and
`sales_by_year`. -/
theorem C6_group_partition (df : List Record) (c : FilterCriteria) :
    ((sales_by_genre (filtered_df df c)).map Prod.snd).sum =
        (aggregate (filtered_df df c)).total_sales ∧
      ((sales_by_platform (filtered_df df c)).map Prod.snd).sum =
        (aggregate (filtered_df df c)).total_sales ∧
      ((sales_over_time (filtered_df df c)).map Prod.snd).sum =
        (aggregate (filtered_df df c)).total_sales := by
  have hmatch : ∀ r ∈ filtered_df df c, matchesCriteria c r = true :=
    fun r hr => (mem_filtered_df_iff.mp hr).2
  refine ⟨?_, ?_, ?_⟩
  · rw [sales_by_genre, sortValuesDesc_snd_sum]
    apply groupBySum_snd_sum
    intro r hr
    obtain ⟨⟨g, _, hg⟩, _, _⟩ := (matchesCriteria_iff c r).mp (hmatch r hr)
    simp [hg]
  · rw [sales_by_platform, sortValuesDesc_snd_sum]
    apply groupBySum_snd_sum
    intro r hr
    obtain ⟨_, ⟨p, _, hp⟩, _⟩ := (matchesCriteria_iff c r).mp (hmatch r hr)
    simp [hp]
  · rw [sales_over_time]
    apply groupBySum_snd_sum
    intro r _
    rfl

/-! ### Claim C7 -/

theorem sales_over_time_map_fst (view : List Record) :
    (sales_over_time view).map Prod.fst =
      groupKeys (fun r => some r.year) view := by
  rw [sales_over_time, groupBySum, List.map_map]
  exact List.map_id _

/-- C7: `sales_by_year` groups the view's Records by year with the
per-group sum of `Global_Sales`, its years are strictly ascending, a
year appears iff some Record of the view has it (exactly once, since
the year list is strictly ascending hence duplicate-free), and no
absent year is gap-filled in. -/
theorem C7_sales_by_year (view : List Record) :
    ((sales_over_time view).map Prod.fst).Sorted (· < ·) ∧
      (∀ y : Int,
        y ∈ (sales_over_time view).map Prod.fst ↔ ∃ r ∈ view, r.year = y) ∧
      ∀ (y : Int) (v : ℚ), (y, v) ∈ sales_over_time view →
        v = ((view.filter fun r => decide (r.year = y)).map salesOf).sum := by
  refine ⟨?_, ?_, ?_⟩
  · rw [sales_over_time_map_fst]
    exact List.Sorted.lt_of_le (List.sorted_insertionSort _ _)
      (groupKeys_nodup _ view)
  · intro y
    rw [sales_over_time_map_fst, mem_groupKeys]
    simp
  · intro y v hyv
    rw [sales_over_time, groupBySum] at hyv
    rcases List.mem_map.mp hyv with ⟨k, _, heq⟩
    rcases Prod.mk.injEq .. ▸ heq with ⟨rfl, rfl⟩
    simp only [groupSum]
    congr 1
    congr 1
    apply List.filter_congr
    intro r _
    simp

theorem C7_sales_by_year_witness :
    (1 : ℚ) =
      ((tieView.filter fun r => decide (r.year = (2005 : Int))).map
        salesOf).sum :=
  (C7_sales_by_year tieView).2.2 2005 1 (by
    norm_num +decide [sales_over_time, groupBySum, groupKeys, groupSum,
      salesOf, tieView, List.insertionSort, List.orderedInsert, List.filter,
      List.filterMap, List.dedup, List.pwFilter])

/-! ### Claim C2 -/

/-- Stability of `List.orderedInsert`: inserting `x` into a list keeps
every pairwise relation `P` that `x` bears to the list's members,
provided a failed comparison forces `P` in the other direction. -/
theorem pairwise_orderedInsert {α : Type} {r : α → α → Prop}
    [DecidableRel r] {P : α → α → Prop}
    (hvac : ∀ a b, ¬ r a b → P b a) (x : α) :
    ∀ t : List α, t.Pairwise P → (∀ b ∈ t, P x b) →
      (List.orderedInsert r x t).Pairwise P := by
  intro t
  induction t with
  | nil =>
      intro _ _
      simp
  | cons b t' ih =>
      intro ht hx
      by_cases h : r x b
      · rw [List.orderedInsert, if_pos h]
        exact List.Pairwise.cons hx ht
      · rw [List.orderedInsert, if_neg h]
        refine List.Pairwise.cons ?_ ?_
        · intro y hy
          rcases List.mem_cons.mp
              ((List.perm_orderedInsert r x t').mem_iff.mp hy) with rfl | hyt
          · exact hvac _ b h
          · exact (List.pairwise_cons.mp ht).1 y hyt
        · exact ih (List.pairwise_cons.mp ht).2
            fun y hy => hx y (List.mem_cons_of_mem b hy)

/-- Stability of `List.insertionSort`: a pairwise relation `P` of the
input survives the sort whenever a failed comparison forces `P` in the
other direction (so equal-rank elements keep their relative order). -/
theorem pairwise_insertionSort {α : Type} {r : α → α → Prop}
    [DecidableRel r] {P : α → α → Prop}
    (hvac : ∀ a b, ¬ r a b → P b a) :
    ∀ l : List α, l.Pairwise P → (List.insertionSort r l).Pairwise P := by
  intro l
  induction l with
  | nil =>
      intro _
      simp
  | cons x l' ih =>
      intro hl
      rw [List.insertionSort]
      apply pairwise_orderedInsert hvac
      · exact ih (List.pairwise_cons.mp hl).2
      · intro b hb
        exact (List.pairwise_cons.mp hl).1 b
          ((List.perm_insertionSort r l').mem_iff.mp hb)

/-- The keys of a `groupby` output are strictly ascending. -/
theorem groupBySum_pairwise_keyLt {κ : Type} [LinearOrder κ]
    (f : Record → Option κ) (view : List Record) :
    (groupBySum f view).Pairwise fun a b => a.1 < b.1 := by
  rw [groupBySum, List.pairwise_map]
  exact List.Sorted.lt_of_le (List.sorted_insertionSort _ _)
    (groupKeys_nodup f view)

/-- On a list whose keys ascend strictly, the stable descending sort
produces the order: descending value, ties broken by ascending key. -/
theorem sortValuesDesc_sorted_lex {κ : Type} [LinearOrder κ]
    {l : List (κ × ℚ)} (hl : l.Pairwise fun a b => a.1 < b.1) :
    (sortValuesDesc l).Pairwise
      fun a b => b.2 < a.2 ∨ (a.2 = b.2 ∧ a.1 ≤ b.1) := by
  have h1 : (sortValuesDesc l).Pairwise valueDescLe :=
    List.sorted_insertionSort valueDescLe l
  have h2 : (sortValuesDesc l).Pairwise
      fun a b => a.2 = b.2 → a.1 ≤ b.1 := by
    apply pairwise_insertionSort
    · intro a b hr heq
      exact absurd heq.symm (ne_of_lt (lt_of_not_le hr))
    · refine hl.imp ?_
      intro a b h heq
      exact le_of_lt h
  refine (h1.and h2).imp ?_
  intro a b hab
  rcases lt_or_eq_of_le hab.1 with h | h
  · exact Or.inl h
  · exact Or.inr ⟨h.symm, hab.2 h.symm⟩

/-- C2: `sales_by_genre` and `sales_by_platform` hold exactly the
grouped per-key `Global_Sales` sums (one pair per observed key), ordered
by descending sum with ties between equal sums broken by ascending key
name: the code's `sort_values(ascending=False)` is a stable descending
sort of the key-ascending `groupby` output. -/
theorem C2_group_sort_desc_tie_asc (view : List Record) :
    (sales_by_genre view).Perm (groupBySum (fun r => r.genre) view) ∧
      (sales_by_genre view).Pairwise
        (fun a b => b.2 < a.2 ∨ (a.2 = b.2 ∧ a.1 ≤ b.1)) ∧
      (sales_by_platform view).Perm
        (groupBySum (fun r => r.platform) view) ∧
      (sales_by_platform view).Pairwise
        (fun a b => b.2 < a.2 ∨ (a.2 = b.2 ∧ a.1 ≤ b.1)) :=
  ⟨sortValuesDesc_perm _,
    sortValuesDesc_sorted_lex (groupBySum_pairwise_keyLt _ view),
    sortValuesDesc_perm _,
    sortValuesDesc_sorted_lex (groupBySum_pairwise_keyLt _ view)⟩

/-! ### Claim C8 -/

theorem groupKeys_perm_eq {κ : Type} [LinearOrder κ] (f : Record → Option κ)
    {v v' : List Record} (h : v.Perm v') : groupKeys f v = groupKeys f v' := by
  apply List.eq_of_perm_of_sorted (r := (· ≤ ·))
  · exact (List.perm_insertionSort _ _).trans
      ((h.filterMap f).dedup.trans (List.perm_insertionSort _ _).symm)
  · exact List.sorted_insertionSort _ _
  · exact List.sorted_insertionSort _ _

theorem groupSum_perm_eq {κ : Type} [DecidableEq κ] (f : Record → Option κ)
    (k : κ) {v v' : List Record} (h : v.Perm v') :
    groupSum f k v = groupSum f k v' :=
  ((h.filter _).map salesOf).sum_eq

theorem groupBySum_perm_eq {κ : Type} [LinearOrder κ] (f : Record → Option κ)
    {v v' : List Record} (h : v.Perm v') : groupBySum f v = groupBySum f v' := by
  rw [groupBySum, groupBySum, groupKeys_perm_eq f h]
  apply List.map_congr_left
  intro k _
  rw [groupSum_perm_eq f k h]

theorem aggregate_perm_eq {v v' : List Record} (h : v.Perm v') :
    aggregate v = aggregate v' := by
  simp only [aggregate, AggregateSummary.mk.injEq]
  refine ⟨(h.map salesOf).sum_eq, h.length_eq, ?_, ?_, ?_⟩
  · rw [sales_by_genre, sales_by_genre, groupBySum_perm_eq _ h]
  · rw [sales_by_platform, sales_by_platform, groupBySum_perm_eq _ h]
  · rw [sales_over_time, sales_over_time, groupBySum_perm_eq _ h]

/-- C8: all computed aggregates are order-independent: filtering a
permutation of the Dataset under the same criteria yields the same
`total_sales`, the same `record_count`, and the same three group-by
mappings, keys and values in the same orders. -/
theorem C8_order_independent (df df' : List Record) (c : FilterCriteria)
    (h : df.Perm df') :
    aggregate (filtered_df df c) = aggregate (filtered_df df' c) :=
  aggregate_perm_eq (h.filter _)

theorem C8_order_independent_witness :
    aggregate (filtered_df [recSports, recAction] broadC) =
      aggregate (filtered_df [recAction, recSports] broadC) :=
  C8_order_independent [recSports, recAction] [recAction, recSports] broadC
    (List.Perm.swap recAction recSports [])

end Dashboard
